import Mathlib

/-
Verification of the in-memory object hierarchy of the skytable server
(src/server/src/coredb/memstore.rs) and of the persisted-format tag bytes
(src/server/src/storage/v1/bytemarks.rs).

The concurrent map type `Coremap` (coredb/htable.rs), the bounded identifier
type `Array<u8, 64>` (coredb/array.rs) and the `Table` type (coredb/table.rs)
are used by memstore.rs but their sources are not provided; those parts are
modelled from the spec, as documented on each definition. Everything else is
translated directly from memstore.rs and bytemarks.rs. Concurrency is
flattened into explicit state passing: every operation takes the store and
returns the result paired with the successor store, and the outstanding
strong-reference count of a shared handle (Arc::strong_count in the source)
is carried explicitly on each map entry, with the owning map accounting for
one reference, as the spec defines.
-/

set_option autoImplicit false

namespace Skytable

/-- The keyspace/table identifier, `ObjectID = Array<u8, 64>` in the source:
an immutable byte sequence of at most 64 bytes. The buffer content is
modelled as the list of its used bytes (each a `Nat`); the capacity bound is
enforced at construction by `ObjectID.from_slice`. Equality is byte-exact. -/
structure ObjectID where
  bytes : List Nat
deriving DecidableEq

/-- Modelled from the spec: construct-from-bytes for the 64-byte bounded
identifier (`Array::from_slice` in coredb/array.rs, whose source is not
provided) fails, returning none, when the input exceeds the 64-byte
capacity, and otherwise stores the input bytes unchanged. -/
def ObjectID.from_slice (l : List Nat) : Option ObjectID :=
  if l.length ≤ 64 then some ⟨l⟩ else none

/-- The reserved identifier `default` (the byte string "default"),
`DEFAULT` in memstore.rs. The same byte content is produced by
`unsafe_objectid_from_slice!("default")` for the protected table name. -/
def DEFAULT : ObjectID := ⟨[100, 101, 102, 97, 117, 108, 116]⟩

/-- The reserved identifier `system` (the byte string "system"),
`SYSTEM` in memstore.rs. -/
def SYSTEM : ObjectID := ⟨[115, 121, 115, 116, 101, 109]⟩

/-- Errors arising from trying to modify/access containers
(`DdlError` in memstore.rs). -/
inductive DdlError where
  | StillInUse
  | ObjectNotFound
  | ProtectedObject
  | DefaultNotFound
  | WrongModel
  | AlreadyExists
  | NotReady
  | DdlTransactionFailure
deriving DecidableEq

/-- Modelled from the spec: a map entry is the stored value together with
the outstanding strong-reference count of its shared handle
(`Arc::strong_count` in the source). The owning map itself accounts for one
reference; a lookup that hands out a new handle increments the count. -/
structure Entry (α : Type) where
  value : α
  refcount : Nat
deriving DecidableEq

/-- Modelled from the spec: the concurrent associative store `Coremap`
(coredb/htable.rs, whose source is not provided), flattened to a sequential
association list from identifiers to reference-counted entries. -/
abbrev Coremap (α : Type) : Type := List (ObjectID × Entry α)

/-- First-match lookup of the entry stored under a key. -/
def lookupEntry {α : Type} : Coremap α → ObjectID → Option (Entry α)
  | [], _ => none
  | (k', e) :: rest, k => if k' = k then some e else lookupEntry rest k

/-- Modelled from the spec: `contains(key) -> bool`. -/
def containsKey {α : Type} (m : Coremap α) (k : ObjectID) : Bool :=
  (lookupEntry m k).isSome

/-- Modelled from the spec: `insert_if_absent(key, value) -> bool`
(`true_if_insert` in the source): inserts only if the key is not already
present, never overwrites, and returns whether the insertion happened. A
fresh entry starts with reference count 1, the reference held by the map. -/
def trueIfInsert {α : Type} (m : Coremap α) (k : ObjectID) (v : α) :
    Bool × Coremap α :=
  if containsKey m k then (false, m) else (true, (k, ⟨v, 1⟩) :: m)

/-- Modelled from the spec: `remove_if(key, predicate) -> bool`
(`true_remove_if` in the source): evaluates the predicate against the
current value for the key, removes the entry only if it holds, and returns
whether removal occurred (false if absent or if the predicate was false).
The predicate sees the stored value and its reference count, since in the
source it inspects the shared handle (`Arc::strong_count`). -/
def trueRemoveIf {α : Type} : Coremap α → ObjectID → (α → Nat → Bool) →
    Bool × Coremap α
  | [], _, _ => (false, [])
  | (k', e) :: rest, k, p =>
    if k' = k then
      if p e.value e.refcount then (true, rest) else (false, (k', e) :: rest)
    else
      let r := trueRemoveIf rest k p
      (r.1, (k', e) :: r.2)

/-- Modelled from the spec: the privileged unconditional removal
(`remove` in the source, used by `force_remove_table`). -/
def removeUnconditional {α : Type} : Coremap α → ObjectID → Coremap α
  | [], _ => []
  | (k', e) :: rest, k =>
    if k' = k then rest else (k', e) :: removeUnconditional rest k

/-- Modelled from the spec: `lookup(key)` returns a new reference to the
current value if present (`get(..).map(|v| v.clone())` on an `Arc` in the
source), so the reference count of the entry is incremented. -/
def acquire {α : Type} : Coremap α → ObjectID → Option α × Coremap α
  | [], _ => (none, [])
  | (k', e) :: rest, k =>
    if k' = k then (some e.value, (k', ⟨e.value, e.refcount + 1⟩) :: rest)
    else
      let r := acquire rest k
      (r.1, (k', e) :: r.2)

/-- The keys of a map hold no duplicates: the well-formedness every
reachable `Coremap` enjoys (at most one entry per identifier). -/
abbrev distinctKeys {α : Type} (m : Coremap α) : Prop :=
  (m.map Prod.fst).Nodup

deriving instance DecidableEq for Except

/-- Modelled from the spec: the replication strategy placeholder
(`cluster::ReplicationStrategy` in memstore.rs; single fixed variant). -/
inductive ReplicationStrategy where
  | Default
deriving DecidableEq

/-- Modelled from the spec: a table is an opaque, shareable leaf unit
(coredb/table.rs, whose source is not provided). `new_default_kve` is the
default-model constructor used by `Keyspace::empty_default`; `custom`
stands for any other table value. -/
inductive Table where
  | new_default_kve
  | custom (n : Nat)
deriving DecidableEq

/-- A keyspace houses tables (`Keyspace` in memstore.rs). The advisory
`partmap_lock` guards a file external to this structure and carries no data
relevant to the operations verified here, so it is not modelled. -/
structure Keyspace where
  tables : Coremap Table
  replication_strategy : ReplicationStrategy
deriving DecidableEq

/-- `Keyspace::empty`: a new empty keyspace with zero tables. -/
def Keyspace.empty : Keyspace :=
  ⟨[], ReplicationStrategy.Default⟩

/-- `Keyspace::empty_default`: a new keyspace holding the single table
named `default`, built by the default-model table constructor. -/
def Keyspace.empty_default : Keyspace :=
  ⟨(trueIfInsert [] DEFAULT Table.new_default_kve).2,
    ReplicationStrategy.Default⟩

/-- `Keyspace::init_with_all_def_strategy`: bulk constructor from an
externally supplied table map, replication policy defaulted. -/
def Keyspace.init_with_all_def_strategy (tables : Coremap Table) : Keyspace :=
  ⟨tables, ReplicationStrategy.Default⟩

/-- `Keyspace::get_table_atomic_ref`: a lookup handing out a new shared
handle to the table if it exists. -/
def Keyspace.get_table_atomic_ref (ks : Keyspace) (id : ObjectID) :
    Option Table × Keyspace :=
  let r := acquire ks.tables id
  (r.1, { ks with tables := r.2 })

/-- `Keyspace::create_table`: delegates to `true_if_insert`. -/
def Keyspace.create_table (ks : Keyspace) (id : ObjectID) (t : Table) :
    Bool × Keyspace :=
  let r := trueIfInsert ks.tables id t
  (r.1, { ks with tables := r.2 })

/-- `Keyspace::drop_table`: `ProtectedObject` if the identifier is
`default`; `ObjectNotFound` if absent; otherwise `true_remove_if` with the
predicate that the strong count is exactly 1, giving `Ok(())` on removal
and `StillInUse` otherwise. -/
def Keyspace.drop_table (ks : Keyspace) (id : ObjectID) :
    Except DdlError Unit × Keyspace :=
  if id = DEFAULT then (Except.error DdlError.ProtectedObject, ks)
  else if ¬ containsKey ks.tables id then
    (Except.error DdlError.ObjectNotFound, ks)
  else
    let r := trueRemoveIf ks.tables id (fun _ rc => rc == 1)
    if r.1 then (Except.ok (), { ks with tables := r.2 })
    else (Except.error DdlError.StillInUse, { ks with tables := r.2 })

/-- `Keyspace::force_remove_table`: privileged removal without any
reference check; the caller guarantees no other handle exists. -/
def Keyspace.force_remove_table (ks : Keyspace) (id : ObjectID) : Keyspace :=
  { ks with tables := removeUnconditional ks.tables id }

/-- The root store (`Memstore` in memstore.rs). The snapshot configuration
is kept abstract (the spec only requires that absent/disabled policy yields
no tracking state) and the advisory `preload_lock` guards an external file,
so neither affects the operations verified here. -/
structure Memstore where
  keyspaces : Coremap Keyspace
  snap_config : Option Nat
deriving DecidableEq

/-- `Memstore::new_empty`: literally nothing in it. -/
def Memstore.new_empty : Memstore :=
  ⟨[], none⟩

/-- `Memstore::new_default`: pre-populates the keyspace `default` (via
`Keyspace::empty_default`) and then the keyspace `system` (via
`Keyspace::empty`). -/
def Memstore.new_default : Memstore :=
  ⟨(trueIfInsert (trueIfInsert [] DEFAULT Keyspace.empty_default).2
      SYSTEM Keyspace.empty).2, none⟩

/-- `Memstore::get_keyspace_atomic_ref`: a lookup handing out a new shared
handle to the keyspace if it exists. -/
def Memstore.get_keyspace_atomic_ref (ms : Memstore) (id : ObjectID) :
    Option Keyspace × Memstore :=
  let r := acquire ms.keyspaces id
  (r.1, { ms with keyspaces := r.2 })

/-- `Memstore::create_keyspace`: `true_if_insert` of a fresh empty
keyspace; returns true if a new keyspace was created. -/
def Memstore.create_keyspace (ms : Memstore) (id : ObjectID) :
    Bool × Memstore :=
  let r := trueIfInsert ms.keyspaces id Keyspace.empty
  (r.1, { ms with keyspaces := r.2 })

/-- `Memstore::drop_keyspace`: `ProtectedObject` if the identifier is
`system` or `default`; `ObjectNotFound` if absent; otherwise
`true_remove_if` with the predicate that the strong count is exactly 1,
giving `Ok(())` on removal and `StillInUse` otherwise. -/
def Memstore.drop_keyspace (ms : Memstore) (id : ObjectID) :
    Except DdlError Unit × Memstore :=
  if id = SYSTEM ∨ id = DEFAULT then
    (Except.error DdlError.ProtectedObject, ms)
  else if ¬ containsKey ms.keyspaces id then
    (Except.error DdlError.ObjectNotFound, ms)
  else
    let r := trueRemoveIf ms.keyspaces id (fun _ rc => rc == 1)
    if r.1 then (Except.ok (), { ms with keyspaces := r.2 })
    else (Except.error DdlError.StillInUse, { ms with keyspaces := r.2 })

/-- KVEBlob model bytemark with key bin, val bin (bytemarks.rs). -/
def BYTEMARK_MODEL_KV_BIN_BIN : Nat := 0
/-- KVEBlob model bytemark with key bin, val str (bytemarks.rs). -/
def BYTEMARK_MODEL_KV_BIN_STR : Nat := 1
/-- KVEBlob model bytemark with key str, val str (bytemarks.rs). -/
def BYTEMARK_MODEL_KV_STR_STR : Nat := 2
/-- KVEBlob model bytemark with key str, val bin (bytemarks.rs). -/
def BYTEMARK_MODEL_KV_STR_BIN : Nat := 3
/-- KVEBlob model bytemark with key binstr, val list of binstr. -/
def BYTEMARK_MODEL_KV_BINSTR_LIST_BINSTR : Nat := 4
/-- KVEBlob model bytemark with key binstr, val list of str. -/
def BYTEMARK_MODEL_KV_BINSTR_LIST_STR : Nat := 5
/-- KVEBlob model bytemark with key str, val list of binstr. -/
def BYTEMARK_MODEL_KV_STR_LIST_BINSTR : Nat := 6
/-- KVEBlob model bytemark with key str, val list of str. -/
def BYTEMARK_MODEL_KV_STR_LIST_STR : Nat := 7
/-- Persistent storage bytemark (bytemarks.rs). -/
def BYTEMARK_STORAGE_PERSISTENT : Nat := 0
/-- Volatile storage bytemark (bytemarks.rs). -/
def BYTEMARK_STORAGE_VOLATILE : Nat := 1
/-- System bytemark for the built-in auth table (bytemarks.rs). -/
def SYSTEM_TABLE_AUTH : Nat := 0

/-- A table identifier used by the tests of memstore.rs
(the byte string "apps"). -/
def APPS : ObjectID := ⟨[97, 112, 112, 115]⟩

/-- When the key is present, conditional removal evaluates its predicate on
the first matching entry and reports exactly the predicate value. -/
theorem trueRemoveIf_fst {α : Type} (m : Coremap α) (k : ObjectID)
    (p : α → Nat → Bool) (e : Entry α) (he : lookupEntry m k = some e) :
    (trueRemoveIf m k p).1 = p e.value e.refcount := by
  induction m with
  | nil => simp [lookupEntry] at he
  | cons hd tl ih =>
    obtain ⟨k', e'⟩ := hd
    by_cases hk : k' = k
    · have he' : e' = e := by simpa [lookupEntry, hk] using he
      cases hp : p e.value e.refcount <;> simp [trueRemoveIf, hk, he', hp]
    · have he2 : lookupEntry tl k = some e := by
        simpa [lookupEntry, hk] using he
      simp [trueRemoveIf, hk, ih he2]

/-- Conditional removal that does not remove leaves the map unchanged. -/
theorem trueRemoveIf_not_removed {α : Type} (m : Coremap α) (k : ObjectID)
    (p : α → Nat → Bool) (h : (trueRemoveIf m k p).1 = false) :
    (trueRemoveIf m k p).2 = m := by
  induction m with
  | nil => simp [trueRemoveIf]
  | cons hd tl ih =>
    obtain ⟨k', e'⟩ := hd
    by_cases hk : k' = k
    · subst hk
      by_cases hp : p e'.value e'.refcount
      · simp [trueRemoveIf, hp] at h
      · simp [trueRemoveIf, hp]
    · simp [trueRemoveIf, hk] at h ⊢
      exact ih h

/-- A key that is not among the keys of the map is not found. -/
theorem containsKey_eq_false_of_not_mem {α : Type} (m : Coremap α)
    (k : ObjectID) (h : k ∉ m.map Prod.fst) : containsKey m k = false := by
  induction m with
  | nil => simp [containsKey, lookupEntry]
  | cons hd tl ih =>
    obtain ⟨k', e'⟩ := hd
    simp only [List.map_cons, List.mem_cons] at h
    push_neg at h
    have hk : k' ≠ k := fun hq => h.1 hq.symm
    have htl := ih h.2
    simp only [containsKey, lookupEntry, hk, if_false] at htl ⊢
    exact htl

/-- On a duplicate-free map, removal with a predicate that holds on the
stored entry makes the key absent. -/
theorem containsKey_trueRemoveIf {α : Type} (m : Coremap α) (k : ObjectID)
    (p : α → Nat → Bool) (e : Entry α) (hd : distinctKeys m)
    (he : lookupEntry m k = some e) (hp : p e.value e.refcount = true) :
    containsKey (trueRemoveIf m k p).2 k = false := by
  induction m with
  | nil => simp [lookupEntry] at he
  | cons hd0 tl ih =>
    obtain ⟨k', e'⟩ := hd0
    rw [distinctKeys, List.map_cons, List.nodup_cons] at hd
    by_cases hk : k' = k
    · have he' : e' = e := by simpa [lookupEntry, hk] using he
      have hnm : k ∉ tl.map Prod.fst := hk ▸ hd.1
      have hp' : p e'.value e'.refcount = true := he' ▸ hp
      simp [trueRemoveIf, hk, hp']
      exact containsKey_eq_false_of_not_mem tl k hnm
    · have he2 : lookupEntry tl k = some e := by
        simpa [lookupEntry, hk] using he
      have htl := ih hd.2 he2
      simp only [trueRemoveIf, hk, if_false] at htl ⊢
      simp only [containsKey, lookupEntry, hk, if_false] at htl ⊢
      exact htl

/-- A lookup that hands out a new reference leaves the value in place and
increments the reference count of the entry. -/
theorem acquire_lookup {α : Type} (m : Coremap α) (k : ObjectID)
    (e : Entry α) (he : lookupEntry m k = some e) :
    lookupEntry (acquire m k).2 k = some ⟨e.value, e.refcount + 1⟩ := by
  induction m with
  | nil => simp [lookupEntry] at he
  | cons hd tl ih =>
    obtain ⟨k', e'⟩ := hd
    by_cases hk : k' = k
    · have he' : e' = e := by simpa [lookupEntry, hk] using he
      simp [acquire, lookupEntry, hk, he']
    · have he2 : lookupEntry tl k = some e := by
        simpa [lookupEntry, hk] using he
      simp [acquire, lookupEntry, hk]
      simpa [lookupEntry] using ih he2

/-- The result of a table drop on a present, unprotected identifier is
decided by the reference count of the stored entry. -/
theorem drop_table_fst_of_lookup (ks : Keyspace) (id : ObjectID)
    (e : Entry Table) (hne : id ≠ DEFAULT)
    (he : lookupEntry ks.tables id = some e) :
    (ks.drop_table id).1 =
      if e.refcount = 1 then Except.ok ()
      else Except.error DdlError.StillInUse := by
  have hc : containsKey ks.tables id = true := by simp [containsKey, he]
  have hfst := trueRemoveIf_fst ks.tables id (fun _ rc => rc == 1) e he
  by_cases hrc : e.refcount = 1 <;>
    simp [Keyspace.drop_table, hne, hc, hfst, hrc]

/-- The result of a keyspace drop on a present, unprotected identifier is
decided by the reference count of the stored entry. -/
theorem drop_keyspace_fst_of_lookup (ms : Memstore) (id : ObjectID)
    (e : Entry Keyspace) (hne : ¬(id = SYSTEM ∨ id = DEFAULT))
    (he : lookupEntry ms.keyspaces id = some e) :
    (ms.drop_keyspace id).1 =
      if e.refcount = 1 then Except.ok ()
      else Except.error DdlError.StillInUse := by
  have hc : containsKey ms.keyspaces id = true := by simp [containsKey, he]
  have hfst := trueRemoveIf_fst ms.keyspaces id (fun _ rc => rc == 1) e he
  by_cases hrc : e.refcount = 1 <;>
    simp [Memstore.drop_keyspace, hne, hc, hfst, hrc]

/-- C1: for a table identifier other than `default` that is present in the
keyspace, `get_table` hands out a handle that raises the outstanding
reference count of the entry; while such an external handle is held (count
above 1) `drop_table` fails with `StillInUse`, and when the owning map is
the sole holder (count exactly 1 at the instant of the check) `drop_table`
succeeds with `Ok(())`. -/
theorem drop_table_reference_count_gate (ks : Keyspace) (id : ObjectID)
    (e : Entry Table) (hne : id ≠ DEFAULT)
    (he : lookupEntry ks.tables id = some e) :
    (lookupEntry (ks.get_table_atomic_ref id).2.tables id
        = some ⟨e.value, e.refcount + 1⟩) ∧
    (1 < e.refcount →
      (ks.drop_table id).1 = Except.error DdlError.StillInUse) ∧
    (1 ≤ e.refcount →
      ((ks.get_table_atomic_ref id).2.drop_table id).1
        = Except.error DdlError.StillInUse) ∧
    (e.refcount = 1 → (ks.drop_table id).1 = Except.ok ()) := by
  have hacq : lookupEntry (ks.get_table_atomic_ref id).2.tables id
      = some ⟨e.value, e.refcount + 1⟩ := by
    simpa [Keyspace.get_table_atomic_ref] using acquire_lookup ks.tables id e he
  refine ⟨hacq, ?_, ?_, ?_⟩
  · intro hgt
    have hne1 : e.refcount ≠ 1 := by omega
    simp [drop_table_fst_of_lookup ks id e hne he, hne1]
  · intro hge
    have hne1 : e.refcount + 1 ≠ 1 := by omega
    have := drop_table_fst_of_lookup (ks.get_table_atomic_ref id).2 id
      ⟨e.value, e.refcount + 1⟩ hne hacq
    simpa [hne1] using this
  · intro h1
    simp [drop_table_fst_of_lookup ks id e hne he, h1]

/-- C1 witness: in the default keyspace with an extra table `apps`, a drop
attempted while a handle from `get_table` is held fails with `StillInUse`,
and a drop while the map is the sole holder succeeds. -/
theorem drop_table_reference_count_gate_witness :
    ((((Keyspace.empty_default.create_table APPS
        Table.new_default_kve).2.get_table_atomic_ref APPS).2.drop_table
          APPS).1 = Except.error DdlError.StillInUse) ∧
    (((Keyspace.empty_default.create_table APPS
        Table.new_default_kve).2.drop_table APPS).1 = Except.ok ()) := by
  have h := drop_table_reference_count_gate
    (Keyspace.empty_default.create_table APPS Table.new_default_kve).2 APPS
    ⟨Table.new_default_kve, 1⟩ (by decide) (by decide)
  exact ⟨h.2.2.1 (by decide), h.2.2.2 (by decide)⟩

/-- C2: `drop_table` returns exactly one of `ProtectedObject` (identifier
`default`, checked first), `ObjectNotFound` (no such table), `Ok(())`
(conditional removal with the count-equals-1 predicate succeeds on the
stored entry) or `StillInUse` (the predicate fails). -/
theorem drop_table_result_taxonomy (ks : Keyspace) (id : ObjectID) :
    (ks.drop_table id).1 =
      if id = DEFAULT then Except.error DdlError.ProtectedObject
      else
        match lookupEntry ks.tables id with
        | none => Except.error DdlError.ObjectNotFound
        | some e =>
            if e.refcount = 1 then Except.ok ()
            else Except.error DdlError.StillInUse := by
  by_cases hd : id = DEFAULT
  · simp [Keyspace.drop_table, hd]
  · cases hl : lookupEntry ks.tables id with
    | none =>
      have hc : containsKey ks.tables id = false := by
        simp [containsKey, hl]
      simp [Keyspace.drop_table, hd, hc, hl]
    | some e =>
      simp [hd, hl, drop_table_fst_of_lookup ks id e hd hl]

/-- C5: the default-initialized root store holds exactly two keyspaces,
`default` with exactly the one table named `default`, and `system` with
zero tables. -/
theorem memstore_new_default_layout :
    Memstore.new_default.keyspaces.length = 2 ∧
    lookupEntry Memstore.new_default.keyspaces DEFAULT
      = some ⟨Keyspace.empty_default, 1⟩ ∧
    lookupEntry Memstore.new_default.keyspaces SYSTEM
      = some ⟨Keyspace.empty, 1⟩ ∧
    Keyspace.empty_default.tables.length = 1 ∧
    lookupEntry Keyspace.empty_default.tables DEFAULT
      = some ⟨Table.new_default_kve, 1⟩ ∧
    Keyspace.empty.tables.length = 0 := by
  decide

/-- C9: the eight data-model tag bytes cover the four plain key-value
combinations as 0..3 and the four list-valued variants as 4..7 and are
pairwise distinct; the storage-class tags are persistent 0 and volatile 1;
the reserved system tag for the built-in auth table is 0. -/
theorem bytemark_taxonomy :
    BYTEMARK_MODEL_KV_BIN_BIN = 0 ∧
    BYTEMARK_MODEL_KV_BIN_STR = 1 ∧
    BYTEMARK_MODEL_KV_STR_STR = 2 ∧
    BYTEMARK_MODEL_KV_STR_BIN = 3 ∧
    BYTEMARK_MODEL_KV_BINSTR_LIST_BINSTR = 4 ∧
    BYTEMARK_MODEL_KV_BINSTR_LIST_STR = 5 ∧
    BYTEMARK_MODEL_KV_STR_LIST_BINSTR = 6 ∧
    BYTEMARK_MODEL_KV_STR_LIST_STR = 7 ∧
    BYTEMARK_STORAGE_PERSISTENT = 0 ∧
    BYTEMARK_STORAGE_VOLATILE = 1 ∧
    SYSTEM_TABLE_AUTH = 0 ∧
    ([BYTEMARK_MODEL_KV_BIN_BIN, BYTEMARK_MODEL_KV_BIN_STR,
      BYTEMARK_MODEL_KV_STR_STR, BYTEMARK_MODEL_KV_STR_BIN,
      BYTEMARK_MODEL_KV_BINSTR_LIST_BINSTR, BYTEMARK_MODEL_KV_BINSTR_LIST_STR,
      BYTEMARK_MODEL_KV_STR_LIST_BINSTR,
      BYTEMARK_MODEL_KV_STR_LIST_STR] : List Nat).Nodup := by
  refine ⟨rfl, rfl, rfl, rfl, rfl, rfl, rfl, rfl, rfl, rfl, rfl, ?_⟩
  decide

/-- C3: `drop_keyspace` of `default` or `system` always fails with
`ProtectedObject` regardless of prior state; for any other identifier the
result is `ObjectNotFound` if absent, `StillInUse` if the stored reference
count exceeds 1, and otherwise the entry is removed and the result is
`Ok(())`. -/
theorem drop_keyspace_result_taxonomy (ms : Memstore) (id : ObjectID) :
    ((ms.drop_keyspace DEFAULT).1 = Except.error DdlError.ProtectedObject) ∧
    ((ms.drop_keyspace SYSTEM).1 = Except.error DdlError.ProtectedObject) ∧
    ((ms.drop_keyspace id).1 =
      if id = SYSTEM ∨ id = DEFAULT then Except.error DdlError.ProtectedObject
      else
        match lookupEntry ms.keyspaces id with
        | none => Except.error DdlError.ObjectNotFound
        | some e =>
            if e.refcount = 1 then Except.ok ()
            else Except.error DdlError.StillInUse) ∧
    (∀ e : Entry Keyspace, distinctKeys ms.keyspaces →
      ¬(id = SYSTEM ∨ id = DEFAULT) →
      lookupEntry ms.keyspaces id = some e → e.refcount = 1 →
      (ms.drop_keyspace id).1 = Except.ok () ∧
      containsKey (ms.drop_keyspace id).2.keyspaces id = false) := by
  refine ⟨by simp [Memstore.drop_keyspace], by simp [Memstore.drop_keyspace],
    ?_, ?_⟩
  · by_cases hp : id = SYSTEM ∨ id = DEFAULT
    · simp [Memstore.drop_keyspace, hp]
    · cases hl : lookupEntry ms.keyspaces id with
      | none =>
        have hc : containsKey ms.keyspaces id = false := by
          simp [containsKey, hl]
        simp [Memstore.drop_keyspace, hp, hc, hl]
      | some e =>
        simp [hp, hl, drop_keyspace_fst_of_lookup ms id e hp hl]
  · intro e hnd hp hl h1
    have hc : containsKey ms.keyspaces id = true := by simp [containsKey, hl]
    have hfst := trueRemoveIf_fst ms.keyspaces id (fun _ rc => rc == 1) e hl
    have hrm : (trueRemoveIf ms.keyspaces id fun _ rc => rc == 1).1 = true := by
      simp [hfst, h1]
    have habs := containsKey_trueRemoveIf ms.keyspaces id
      (fun _ rc => rc == 1) e hnd hl (by simp [h1])
    constructor
    · simp [Memstore.drop_keyspace, hp, hc, hrm]
    · simp [Memstore.drop_keyspace, hp, hc, hrm, habs]

/-- C3 witness: the protected drops fail on the default store, and after
creating the keyspace `apps` a drop of it succeeds and removes it. -/
theorem drop_keyspace_result_taxonomy_witness :
    ((Memstore.new_default.drop_keyspace DEFAULT).1
      = Except.error DdlError.ProtectedObject) ∧
    (((Memstore.new_default.create_keyspace APPS).2.drop_keyspace APPS).1
      = Except.ok ()) ∧
    (containsKey
      ((Memstore.new_default.create_keyspace APPS).2.drop_keyspace
        APPS).2.keyspaces APPS = false) := by
  have h1 := (drop_keyspace_result_taxonomy Memstore.new_default APPS).1
  have h4 := (drop_keyspace_result_taxonomy
    (Memstore.new_default.create_keyspace APPS).2 APPS).2.2.2
    ⟨Keyspace.empty, 1⟩ (by decide) (by decide) (by decide) (by decide)
  exact ⟨h1, h4.1, h4.2⟩

/-- C4: `create_keyspace` and `create_table` return true exactly when no
entry for the identifier was present; when one is present they change
nothing (never overwrite, the stored value stays reachable); when absent
they insert exactly then, and a second create of the same identifier
returns false. -/
theorem create_insert_if_absent_semantics (ms : Memstore) (ks : Keyspace)
    (id : ObjectID) (t : Table) :
    ((ms.create_keyspace id).1 = !(containsKey ms.keyspaces id)) ∧
    (∀ e : Entry Keyspace, lookupEntry ms.keyspaces id = some e →
      (ms.create_keyspace id).1 = false ∧ (ms.create_keyspace id).2 = ms) ∧
    (containsKey ms.keyspaces id = false →
      (ms.create_keyspace id).1 = true ∧
      lookupEntry (ms.create_keyspace id).2.keyspaces id
        = some ⟨Keyspace.empty, 1⟩ ∧
      ((ms.create_keyspace id).2.create_keyspace id).1 = false) ∧
    ((ks.create_table id t).1 = !(containsKey ks.tables id)) ∧
    (∀ e : Entry Table, lookupEntry ks.tables id = some e →
      (ks.create_table id t).1 = false ∧ (ks.create_table id t).2 = ks) ∧
    (containsKey ks.tables id = false →
      (ks.create_table id t).1 = true ∧
      lookupEntry (ks.create_table id t).2.tables id = some ⟨t, 1⟩ ∧
      ((ks.create_table id t).2.create_table id t).1 = false) := by
  refine ⟨?_, ?_, ?_, ?_, ?_, ?_⟩
  · by_cases hc : containsKey ms.keyspaces id <;>
      simp [Memstore.create_keyspace, trueIfInsert, hc]
  · intro e hl
    have hc : containsKey ms.keyspaces id = true := by simp [containsKey, hl]
    simp [Memstore.create_keyspace, trueIfInsert, hc]
  · intro hc
    have hc' : (lookupEntry ms.keyspaces id).isSome = false := hc
    refine ⟨by simp [Memstore.create_keyspace, trueIfInsert, hc], ?_, ?_⟩
    · simp [Memstore.create_keyspace, trueIfInsert, hc, lookupEntry]
    · simp [Memstore.create_keyspace, trueIfInsert, containsKey,
        lookupEntry, hc']
  · by_cases hc : containsKey ks.tables id <;>
      simp [Keyspace.create_table, trueIfInsert, hc]
  · intro e hl
    have hc : containsKey ks.tables id = true := by simp [containsKey, hl]
    simp [Keyspace.create_table, trueIfInsert, hc]
  · intro hc
    have hc' : (lookupEntry ks.tables id).isSome = false := hc
    refine ⟨by simp [Keyspace.create_table, trueIfInsert, hc], ?_, ?_⟩
    · simp [Keyspace.create_table, trueIfInsert, hc, lookupEntry]
    · simp [Keyspace.create_table, trueIfInsert, containsKey,
        lookupEntry, hc']

/-- C4 witness: creating the keyspace `apps` on the default store succeeds
once and a second create returns false; the same holds for a table `apps`
in the default keyspace, and a duplicate create leaves the stored entry
for the keyspace `default` untouched. -/
theorem create_insert_if_absent_semantics_witness :
    ((Memstore.new_default.create_keyspace APPS).1 = true ∧
      lookupEntry (Memstore.new_default.create_keyspace APPS).2.keyspaces
        APPS = some ⟨Keyspace.empty, 1⟩ ∧
      ((Memstore.new_default.create_keyspace APPS).2.create_keyspace
        APPS).1 = false) ∧
    ((Memstore.new_default.create_keyspace DEFAULT).1 = false ∧
      (Memstore.new_default.create_keyspace DEFAULT).2
        = Memstore.new_default) ∧
    ((Keyspace.empty_default.create_table APPS (Table.custom 0)).1 = true ∧
      lookupEntry (Keyspace.empty_default.create_table APPS
        (Table.custom 0)).2.tables APPS = some ⟨Table.custom 0, 1⟩ ∧
      ((Keyspace.empty_default.create_table APPS
        (Table.custom 0)).2.create_table APPS (Table.custom 0)).1
        = false) := by
  refine ⟨(create_insert_if_absent_semantics Memstore.new_default
      Keyspace.empty_default APPS (Table.custom 0)).2.2.1 (by decide),
    (create_insert_if_absent_semantics Memstore.new_default
      Keyspace.empty_default DEFAULT (Table.custom 0)).2.1
      ⟨Keyspace.empty_default, 1⟩ (by decide),
    (create_insert_if_absent_semantics Memstore.new_default
      Keyspace.empty_default APPS (Table.custom 0)).2.2.2.2.2 (by decide)⟩

/-- C6 counterexample: a keyspace that is not the default keyspace
(`Keyspace::empty` differs from `Keyspace::empty_default`) accepts
`create_table` of the identifier `default`, so a single create places a
table named `default` outside the default keyspace, refuting the claimed
containment invariant. -/
theorem default_table_containment_counterexample :
    (Keyspace.empty.create_table DEFAULT Table.new_default_kve).1 = true ∧
    lookupEntry (Keyspace.empty.create_table DEFAULT
      Table.new_default_kve).2.tables DEFAULT
      = some ⟨Table.new_default_kve, 1⟩ ∧
    Keyspace.empty ≠ Keyspace.empty_default := by
  decide

/-- C6 amended: in every keyspace `drop_table` of the identifier `default`
always fails with `ProtectedObject` (the `default` table is never removable
via `drop_table`), but `create_table` applies no identifier check, so it
inserts a table named `default` into any keyspace where that name is
absent. -/
theorem default_table_protection_amended (ks : Keyspace) (t : Table) :
    ((ks.drop_table DEFAULT).1 = Except.error DdlError.ProtectedObject) ∧
    ((ks.create_table DEFAULT t).1 = !(containsKey ks.tables DEFAULT)) := by
  constructor
  · simp [Keyspace.drop_table]
  · by_cases hc : containsKey ks.tables DEFAULT <;>
      simp [Keyspace.create_table, trueIfInsert, hc]

/-- C8: identifier construction from more than 64 bytes fails by returning
none rather than truncating; a successful construction stores the input
bytes unchanged; and identifier equality is exactly byte equality
(byte-exact, case-sensitive). -/
theorem objectid_construction (l : List Nat) (a b : ObjectID) :
    (64 < l.length → ObjectID.from_slice l = none) ∧
    (∀ oid : ObjectID, ObjectID.from_slice l = some oid → oid.bytes = l) ∧
    (a = b ↔ a.bytes = b.bytes) := by
  refine ⟨?_, ?_, ?_⟩
  · intro hlen
    have : ¬ l.length ≤ 64 := by omega
    simp [ObjectID.from_slice, this]
  · intro oid hoid
    by_cases hlen : l.length ≤ 64
    · simp [ObjectID.from_slice, hlen] at hoid
      simp [← hoid]
    · simp [ObjectID.from_slice, hlen] at hoid
  · cases a with
    | mk la => cases b with
      | mk lb => simp [ObjectID.mk.injEq]

/-- C8 witness: a 65-byte input is rejected and a 3-byte input is stored
byte for byte. -/
theorem objectid_construction_witness :
    ObjectID.from_slice (List.replicate 65 0) = none ∧
    (ObjectID.mk [1, 2, 3]).bytes = [1, 2, 3] := by
  refine ⟨(objectid_construction (List.replicate 65 0) ⟨[]⟩ ⟨[]⟩).1
      (by decide),
    (objectid_construction [1, 2, 3] ⟨[]⟩ ⟨[]⟩).2.1 ⟨[1, 2, 3]⟩ (by decide)⟩

/-- C10: whenever `drop_table` or `drop_keyspace` returns an error, the
store is left unchanged; in particular after `StillInUse` the entry is
still present and a lookup of the same identifier finds the same stored
value. -/
theorem drop_error_preserves_state (ks : Keyspace) (ms : Memstore)
    (id : ObjectID) (err : DdlError) :
    ((ks.drop_table id).1 = Except.error err → (ks.drop_table id).2 = ks) ∧
    ((ms.drop_keyspace id).1 = Except.error err →
      (ms.drop_keyspace id).2 = ms) ∧
    ((ks.drop_table id).1 = Except.error DdlError.StillInUse →
      lookupEntry (ks.drop_table id).2.tables id = lookupEntry ks.tables id ∧
      containsKey (ks.drop_table id).2.tables id = true) := by
  have hks : (ks.drop_table id).1 = Except.error err →
      (ks.drop_table id).2 = ks := by
    by_cases hd : id = DEFAULT
    · simp [Keyspace.drop_table, hd]
    · by_cases hc : containsKey ks.tables id
      · cases hr : (trueRemoveIf ks.tables id fun _ rc => rc == 1).1 with
        | false =>
          have hkeep := trueRemoveIf_not_removed ks.tables id
            (fun _ rc => rc == 1) hr
          simp [Keyspace.drop_table, hd, hc, hr, hkeep]
        | true => simp [Keyspace.drop_table, hd, hc, hr]
      · simp [Keyspace.drop_table, hd, hc]
  have hsiu : (ks.drop_table id).1 = Except.error DdlError.StillInUse →
      containsKey ks.tables id = true := by
    by_cases hd : id = DEFAULT
    · simp [Keyspace.drop_table, hd]
    · by_cases hc : containsKey ks.tables id
      · intro _; exact hc
      · simp [Keyspace.drop_table, hd, hc]
  refine ⟨hks, ?_, ?_⟩
  · by_cases hp : id = SYSTEM ∨ id = DEFAULT
    · simp [Memstore.drop_keyspace, hp]
    · by_cases hc : containsKey ms.keyspaces id
      · cases hr : (trueRemoveIf ms.keyspaces id fun _ rc => rc == 1).1 with
        | false =>
          have hkeep := trueRemoveIf_not_removed ms.keyspaces id
            (fun _ rc => rc == 1) hr
          simp [Memstore.drop_keyspace, hp, hc, hr, hkeep]
        | true => simp [Memstore.drop_keyspace, hp, hc, hr]
      · simp [Memstore.drop_keyspace, hp, hc]
  · intro hres
    have heq : (ks.drop_table id).2 = ks := by
      by_cases hd : id = DEFAULT
      · simp [Keyspace.drop_table, hd]
      · by_cases hc : containsKey ks.tables id
        · cases hr : (trueRemoveIf ks.tables id fun _ rc => rc == 1).1 with
          | false =>
            have hkeep := trueRemoveIf_not_removed ks.tables id
              (fun _ rc => rc == 1) hr
            simp [Keyspace.drop_table, hd, hc, hr, hkeep]
          | true =>
            exfalso
            have : (ks.drop_table id).1 = Except.ok () := by
              simp [Keyspace.drop_table, hd, hc, hr]
            rw [this] at hres
            exact Except.noConfusion hres
        · simp [Keyspace.drop_table, hd, hc]
    rw [heq]
    exact ⟨rfl, hsiu hres⟩

/-- C10 witness: an `ObjectNotFound` table drop, an `ObjectNotFound`
keyspace drop and a `StillInUse` table drop (reference count 2) each leave
the store unchanged, with the busy entry still reachable. -/
theorem drop_error_preserves_state_witness :
    ((Keyspace.empty.drop_table APPS).2 = Keyspace.empty) ∧
    ((Memstore.new_empty.drop_keyspace APPS).2 = Memstore.new_empty) ∧
    (lookupEntry ((Keyspace.init_with_all_def_strategy
        [(APPS, ⟨Table.new_default_kve, 2⟩)]).drop_table APPS).2.tables APPS
      = lookupEntry (Keyspace.init_with_all_def_strategy
        [(APPS, ⟨Table.new_default_kve, 2⟩)]).tables APPS ∧
      containsKey ((Keyspace.init_with_all_def_strategy
        [(APPS, ⟨Table.new_default_kve, 2⟩)]).drop_table APPS).2.tables APPS
      = true) := by
  refine ⟨(drop_error_preserves_state Keyspace.empty Memstore.new_empty APPS
      DdlError.ObjectNotFound).1 (by decide),
    (drop_error_preserves_state Keyspace.empty Memstore.new_empty APPS
      DdlError.ObjectNotFound).2.1 (by decide),
    (drop_error_preserves_state
      (Keyspace.init_with_all_def_strategy
        [(APPS, ⟨Table.new_default_kve, 2⟩)]) Memstore.new_empty APPS
      DdlError.StillInUse).2.2 (by decide)⟩

end Skytable
